import Mathlib

/-!
Verification of the Mahoraga default strategy core (sentiment-momentum).

Shallow embedding of the strategy modules:
  * helpers/sentiment.ts   — keyword sentiment scoring
  * rules/staleness.ts     — staleness engine
  * rules/entries.ts       — entry selection
  * rules/exits.ts         — exit selection (take-profit / stop-loss / staleness / options)
  * helpers/ticker.ts      — ticker extraction and the two-tier validation cache
  * gatherers/twitter.ts   — confirmation lookups under a daily read budget
  * gatherers/reddit.ts and gatherers/sec.ts — the validation paths that gate
    promotion of a per-symbol aggregate to a Signal

JavaScript numbers are embedded as exact rationals (ℚ); timestamps in
milliseconds as integers or rationals as the call sites require.  String
interpolation used only to build human-readable reason texts is embedded as
structured data (inductive reason tags carrying the numbers that the source
interpolates).  Network effects are embedded by passing the response a call
would have produced as an explicit argument, together with a Boolean recording
whether the network branch was taken.
-/

namespace Mahoraga

/-! ### helpers/sentiment.ts — keyword sentiment -/

/-- Case-insensitive JS `String.prototype.includes`: `containsSub needle hay`
is true iff `needle` occurs as a contiguous substring of `hay`.
(Case handling is done by the callers, which lower-case the haystack first,
mirroring `text.toLowerCase()` in the source.) -/
def containsSub (needle : List Char) : List Char → Bool
  | [] => needle.isEmpty
  | c :: t => needle.isPrefixOf (c :: t) || containsSub needle t

/-- Lower-casing of a character list, mirroring JS `toLowerCase` on the ASCII
inputs this code deals with. -/
def toLowerList (s : List Char) : List Char := s.map Char.toLower

/-- The fixed bullish word list of `detectSentiment` (helpers/sentiment.ts). -/
def bullishWords : List (List Char) :=
  [ "moon".data, "rocket".data, "buy".data, "calls".data, "long".data,
    "bullish".data, "yolo".data, "tendies".data, "gains".data, "diamond".data,
    "squeeze".data, "pump".data, "green".data, "up".data, "breakout".data,
    "undervalued".data, "accumulate".data ]

/-- The fixed bearish word list of `detectSentiment` (helpers/sentiment.ts). -/
def bearishWords : List (List Char) :=
  [ "puts".data, "short".data, "sell".data, "bearish".data, "crash".data,
    "dump".data, "drill".data, "tank".data, "rip".data, "red".data,
    "down".data, "bag".data, "overvalued".data, "bubble".data, "avoid".data ]

/-- Number of words of `words` that occur (as substrings) in `lower`.
The source increments a counter once per word that is present
(`if (lower.includes(w)) bull++`), regardless of how often it occurs. -/
def countPresent (words : List (List Char)) (lower : List Char) : Nat :=
  (words.filter (fun w => containsSub w lower)).length

/-- Embedding of `detectSentiment` (helpers/sentiment.ts lines 57-104). -/
def detectSentiment (text : List Char) : ℚ :=
  let lower := toLowerList text
  let bull := countPresent bullishWords lower
  let bear := countPresent bearishWords lower
  let total := bull + bear
  if total = 0 then 0 else ((bull : ℚ) - (bear : ℚ)) / (total : ℚ)

/-! ### Configuration and core records -/

/-- The slice of `AgentConfig` read by the embedded code. -/
structure AgentConfig where
  max_positions : Nat
  min_analyst_confidence : ℚ
  position_size_pct_of_cash : ℚ
  max_position_value : ℚ
  options_enabled : Bool
  options_min_confidence : ℚ
  options_take_profit_pct : ℚ
  options_stop_loss_pct : ℚ
  take_profit_pct : ℚ
  stop_loss_pct : ℚ
  stale_position_enabled : Bool
  stale_min_hold_hours : ℚ
  stale_max_hold_days : ℚ
  stale_mid_hold_days : ℚ
  stale_mid_min_gain_pct : ℚ
  stale_min_gain_pct : ℚ
  stale_social_volume_decay : ℚ
deriving DecidableEq

/-- Position snapshot fields read by the exit rules (core/types `Position`). -/
structure Position where
  symbol : String
  asset_class : String
  market_value : ℚ
  unrealized_pl : ℚ
  avg_entry_price : ℚ
  current_price : ℚ
deriving DecidableEq

/-- Entry record for a held position (core/types `PositionEntry`):
entry timestamp (ms), entry price, and social volume at entry. -/
structure PositionEntry where
  entry_time : ℚ
  entry_price : ℚ
  entry_social_volume : ℚ
deriving DecidableEq

/-! ### rules/staleness.ts — staleness engine -/

/-- Which early-return (if any) produced a `StalenessResult`; the source
stores this distinction in its human-readable `reason` string. -/
inductive StalenessTag
  | noEntry
  | tooEarly
  | scored
deriving DecidableEq

/-- Embedding of the `StalenessResult` record, with the `reason` string
replaced by the structured `tag`. -/
structure StalenessResult where
  isStale : Bool
  staleness_score : ℚ
  tag : StalenessTag
deriving DecidableEq

/-- Time-based component of the staleness score (max 40 points): the first
`stalenessScore +=` block of `analyzeStaleness`. -/
def timeScore (config : AgentConfig) (holdDays : ℚ) : ℚ :=
  if holdDays ≥ config.stale_max_hold_days then 40
  else if holdDays ≥ config.stale_mid_hold_days then
    20 * (holdDays - config.stale_mid_hold_days) /
      (config.stale_max_hold_days - config.stale_mid_hold_days)
  else 0

/-- Price-action component of the staleness score (max 30 points): the
second `stalenessScore +=` block of `analyzeStaleness`. -/
def priceScore (config : AgentConfig) (pnlPct holdDays : ℚ) : ℚ :=
  if pnlPct < 0 then min 30 (|pnlPct| * 3)
  else if pnlPct < config.stale_mid_min_gain_pct ∧
      holdDays ≥ config.stale_mid_hold_days then 15
  else 0

/-- Social-volume-decay component of the staleness score (max 30 points):
the third `stalenessScore +=` block of `analyzeStaleness`. -/
def volumeScore (config : AgentConfig) (volumeRatio : ℚ) : ℚ :=
  if volumeRatio ≤ config.stale_social_volume_decay then 30
  else if volumeRatio ≤ 1/2 then 15
  else 0

/-- Embedding of `analyzeStaleness` (rules/staleness.ts lines 18-74).
`now` stands for `Date.now()` in milliseconds. -/
def analyzeStaleness (now currentPrice currentSocialVolume : ℚ)
    (entry : Option PositionEntry) (config : AgentConfig) : StalenessResult :=
  match entry with
  | none => ⟨false, 0, .noEntry⟩
  | some e =>
    let holdHours := (now - e.entry_time) / (1000 * 60 * 60)
    let holdDays := holdHours / 24
    let pnlPct := if e.entry_price > 0
      then (currentPrice - e.entry_price) / e.entry_price * 100 else 0
    if holdHours < config.stale_min_hold_hours then ⟨false, 0, .tooEarly⟩
    else
      let volumeRatio := if e.entry_social_volume > 0
        then currentSocialVolume / e.entry_social_volume else 1
      let stalenessScore := min 100
        (timeScore config holdDays + priceScore config pnlPct holdDays +
          volumeScore config volumeRatio)
      let isStale := stalenessScore ≥ 70 ∨
        (holdDays ≥ config.stale_max_hold_days ∧ pnlPct < config.stale_min_gain_pct)
      ⟨if isStale then true else false, stalenessScore, .scored⟩

/-- Division instrumented to report an attempted division by zero. -/
def divChecked (a b : ℚ) : Option ℚ := if b = 0 then none else some (a / b)

/-- Variant of `analyzeStaleness` in which every division of the source is
routed through `divChecked`, so that `some` results witness that no division
by zero was reached while computing the result. -/
def analyzeStalenessChecked (now currentPrice currentSocialVolume : ℚ)
    (entry : Option PositionEntry) (config : AgentConfig) : Option StalenessResult :=
  match entry with
  | none => some ⟨false, 0, .noEntry⟩
  | some e =>
    (divChecked (now - e.entry_time) (1000 * 60 * 60)).bind fun holdHours =>
    (divChecked holdHours 24).bind fun holdDays =>
    (if e.entry_price > 0
      then (divChecked (currentPrice - e.entry_price) e.entry_price).map (fun q => q * 100)
      else some 0).bind fun pnlPct =>
    if holdHours < config.stale_min_hold_hours then some ⟨false, 0, .tooEarly⟩
    else
      (if holdDays ≥ config.stale_max_hold_days then some (40 : ℚ)
        else if holdDays ≥ config.stale_mid_hold_days then
          divChecked (20 * (holdDays - config.stale_mid_hold_days))
            (config.stale_max_hold_days - config.stale_mid_hold_days)
        else some 0).bind fun s1 =>
      (if e.entry_social_volume > 0
        then divChecked currentSocialVolume e.entry_social_volume
        else some 1).bind fun volumeRatio =>
      let stalenessScore := min 100
        (s1 + priceScore config pnlPct holdDays + volumeScore config volumeRatio)
      let isStale := stalenessScore ≥ 70 ∨
        (holdDays ≥ config.stale_max_hold_days ∧ pnlPct < config.stale_min_gain_pct)
      some ⟨if isStale then true else false, stalenessScore, .scored⟩

/-! ### rules/entries.ts — entry selection -/

/-- Research verdict enum (`BUY | SKIP | WAIT`). -/
inductive Verdict
  | BUY
  | SKIP
  | WAIT
deriving DecidableEq

/-- Entry-quality enum (`excellent | good | fair | poor`). -/
inductive EntryQuality
  | excellent
  | good
  | fair
  | poor
deriving DecidableEq

/-- The fields of `ResearchResult` read by `selectEntries`. -/
structure ResearchResult where
  symbol : String
  verdict : Verdict
  confidence : ℚ
  entry_quality : EntryQuality
  reasoning : String
deriving DecidableEq

/-- The field of `Account` read by `selectEntries`. -/
structure Account where
  cash : ℚ
deriving DecidableEq

/-- Output record of `selectEntries`. -/
structure BuyCandidate where
  symbol : String
  confidence : ℚ
  reason : String
  notional : ℚ
  useOptions : Bool
deriving DecidableEq

/-- Stable descending insertion by confidence.  `selectEntries` sorts with the
JS comparator `(a, b) => b.confidence - a.confidence`; `Array.prototype.sort`
is specified to be stable, and for a consistent comparator the stable sorted
result is unique, so a stable insertion sort is an exact embedding. -/
def confDescInsert (r : ResearchResult) : List ResearchResult → List ResearchResult
  | [] => [r]
  | x :: xs =>
    if r.confidence ≥ x.confidence then r :: x :: xs else x :: confDescInsert r xs

/-- Stable sort, descending by confidence (see `confDescInsert`). -/
def sortByConfDesc (l : List ResearchResult) : List ResearchResult :=
  l.foldr confDescInsert []

/-- Position size for one candidate:
`Math.min(account.cash * (sizePct / 100) * r.confidence, ctx.config.max_position_value)`
with `sizePct = Math.min(20, ctx.config.position_size_pct_of_cash)`. -/
def entryNotional (cfg : AgentConfig) (cash confidence : ℚ) : ℚ :=
  min (cash * (min 20 cfg.position_size_pct_of_cash / 100) * confidence)
    cfg.max_position_value

/-- Candidate record pushed by the `selectEntries` loop body. -/
def buildCandidate (cfg : AgentConfig) (cash : ℚ) (r : ResearchResult) : BuyCandidate :=
  { symbol := r.symbol
    confidence := r.confidence
    reason := r.reasoning
    notional := entryNotional cfg cash r.confidence
    useOptions := cfg.options_enabled &&
      decide (r.confidence ≥ cfg.options_min_confidence) &&
      decide (r.entry_quality = EntryQuality.excellent) }

/-- The `for (const r of buyResearch.slice(0, 3))` loop of `selectEntries`:
`nHeld` is `positions.length`, `k` the number of candidates pushed so far;
the loop breaks when `nHeld + k` reaches `max_positions` and skips
candidates whose notional is below 100. -/
def entryLoop (cfg : AgentConfig) (cash : ℚ) (nHeld : Nat) :
    List ResearchResult → Nat → List BuyCandidate
  | [], _ => []
  | r :: rs, k =>
    if nHeld + k ≥ cfg.max_positions then []
    else if entryNotional cfg cash r.confidence < 100 then entryLoop cfg cash nHeld rs k
    else buildCandidate cfg cash r :: entryLoop cfg cash nHeld rs (k + 1)

/-- Embedding of `selectEntries` (rules/entries.ts lines 17-56). -/
def selectEntries (cfg : AgentConfig) (research : List ResearchResult)
    (positions : List Position) (account : Account) : List BuyCandidate :=
  if positions.length ≥ cfg.max_positions then []
  else
    let heldSymbols := positions.map (fun p => p.symbol)
    let buyResearch := sortByConfDesc
      ((research.filter (fun r =>
          decide (r.verdict = Verdict.BUY) &&
          decide (r.confidence ≥ cfg.min_analyst_confidence))).filter
        (fun r => !(heldSymbols.contains r.symbol)))
    entryLoop cfg account.cash positions.length (buyResearch.take 3) 0

/-! ### rules/exits.ts — exit selection -/

/-- Which exit rule fired, carrying the percentage the source interpolates
into the reason string (for staleness, the full `StalenessResult` whose
reason text is embedded in the `STALE:` message). -/
inductive ExitReason
  | takeProfit (plPct : ℚ)
  | stopLoss (plPct : ℚ)
  | optionTakeProfit (plPct : ℚ)
  | optionStopLoss (plPct : ℚ)
  | staleExit (res : StalenessResult)
deriving DecidableEq

/-- Output record of `selectExits`, with the reason string structured. -/
structure SellCandidate where
  symbol : String
  reason : ExitReason
deriving DecidableEq

/-- The P&L percentage `selectExits` computes for non-options positions:
`(pos.unrealized_pl / (pos.market_value - pos.unrealized_pl)) * 100`. -/
def costBasisPlPct (pos : Position) : ℚ :=
  pos.unrealized_pl / (pos.market_value - pos.unrealized_pl) * 100

/-- Embedding of `checkOptionsExit` (rules/exits.ts lines 325-346).
JS `pos.avg_entry_price || pos.current_price` falls back when the average
entry price is `0` (falsy). -/
def checkOptionsExit (cfg : AgentConfig) (pos : Position) : Option SellCandidate :=
  if !cfg.options_enabled then none
  else
    let entryPrice := if pos.avg_entry_price ≠ 0 then pos.avg_entry_price else pos.current_price
    let plPct := if entryPrice > 0 then (pos.current_price - entryPrice) / entryPrice * 100 else 0
    if plPct ≤ -cfg.options_stop_loss_pct then some ⟨pos.symbol, .optionStopLoss plPct⟩
    else if plPct ≥ cfg.options_take_profit_pct then some ⟨pos.symbol, .optionTakeProfit plPct⟩
    else none

/-- The per-position body of the `selectExits` loop (rules/exits.ts lines
271-320).  `socialVolume` embeds the `socialSnapshotCache` lookup (missing
symbols read as volume 0 via `?? 0`), `entries` the `ctx.positionEntries`
table, and `now` the `Date.now()` inside `analyzeStaleness`.  The writes to
`ctx.state` (`stalenessAnalysis`) are observability only and do not influence
which candidates are emitted. -/
def exitForPosition (cfg : AgentConfig) (now : ℚ) (socialVolume : String → ℚ)
    (entries : String → Option PositionEntry) (pos : Position) : Option SellCandidate :=
  if pos.asset_class = "us_option" then checkOptionsExit cfg pos
  else
    let plPct := costBasisPlPct pos
    if plPct ≥ cfg.take_profit_pct then some ⟨pos.symbol, .takeProfit plPct⟩
    else if plPct ≤ -cfg.stop_loss_pct then some ⟨pos.symbol, .stopLoss plPct⟩
    else if cfg.stale_position_enabled then
      let st := analyzeStaleness now pos.current_price (socialVolume pos.symbol)
        (entries pos.symbol) cfg
      if st.isStale then some ⟨pos.symbol, .staleExit st⟩ else none
    else none

/-- Embedding of `selectExits` (rules/exits.ts lines 268-323): one pass over
the positions, each contributing at most one candidate. -/
def selectExits (cfg : AgentConfig) (now : ℚ) (socialVolume : String → ℚ)
    (entries : String → Option PositionEntry) (positions : List Position) :
    List SellCandidate :=
  positions.filterMap (exitForPosition cfg now socialVolume entries)

/-! ### helpers/ticker.ts — two-tier ticker validation cache -/

/-- Upper-casing of a string, mirroring JS `toUpperCase` on the ASCII
symbols this code handles. -/
def upperString (s : String) : String := ⟨s.data.map Char.toUpper⟩

/-- State of `ValidTickerCache`: the authoritative SEC ticker set (absent
until loaded) and the per-symbol Alpaca validation cache.  The JS `Map` is
embedded as an association list where `set` prepends and `get` takes the
first hit. -/
structure TickerCacheState where
  secTickers : Option (List String)
  alpacaCache : List (String × Bool)
deriving DecidableEq

/-- Embedding of `ValidTickerCache.isKnownSecTicker`. -/
def isKnownSecTicker (st : TickerCacheState) (symbol : String) : Bool :=
  match st.secTickers with
  | none => false
  | some l => l.contains (upperString symbol)

/-- Embedding of `ValidTickerCache.getCachedValidation` (`undefined` ↦ `none`). -/
def getCachedValidation (st : TickerCacheState) (symbol : String) : Option Bool :=
  st.alpacaCache.lookup (upperString symbol)

/-- Embedding of `ValidTickerCache.setCachedValidation`. -/
def setCachedValidation (st : TickerCacheState) (symbol : String) (v : Bool) :
    TickerCacheState :=
  { st with alpacaCache := (upperString symbol, v) :: st.alpacaCache }

/-- Result of one `validateWithAlpaca` call: the validity verdict, whether
the external asset-tradability check (the network branch) was taken, and the
cache state afterwards. -/
structure ValidationStep where
  isValid : Bool
  networkUsed : Bool
  state : TickerCacheState
deriving DecidableEq

/-- Embedding of `ValidTickerCache.validateWithAlpaca` (helpers/ticker.ts
lines 381-398).  `assetTradable` is the outcome the external
`alpaca.trading.getAsset` call would produce: `some b` for an asset with
`tradable = b`, `none` for a `null` asset or a thrown error (both of which
the source caches as `false`). -/
def validateWithAlpaca (st : TickerCacheState) (symbol : String)
    (assetTradable : Option Bool) : ValidationStep :=
  match getCachedValidation st symbol with
  | some v => ⟨v, false, st⟩
  | none =>
    let isValid := assetTradable = some true
    ⟨if isValid then true else false, true,
      setCachedValidation st symbol (if isValid then true else false)⟩

/-- Whether a gatherer promotes the aggregate for a symbol or drops it. -/
inductive GateOutcome
  | promoted
  | dropped
deriving DecidableEq

/-- Result of running a per-symbol validation gate inside a gatherer. -/
structure GateStep where
  outcome : GateOutcome
  networkUsed : Bool
  state : TickerCacheState
deriving DecidableEq

/-- Embedding of the validation path `gatherReddit` runs before promoting an
aggregate with ≥ 2 mentions to a `Signal` (gatherers/reddit.ts lines
152-164): authoritative-set membership short-circuits, then the cached
verdict, then `validateWithAlpaca`. -/
def redditValidationGate (st : TickerCacheState) (symbol : String)
    (assetTradable : Option Bool) : GateStep :=
  if isKnownSecTicker st symbol then ⟨.promoted, false, st⟩
  else
    match getCachedValidation st symbol with
    | some false => ⟨.dropped, false, st⟩
    | some true => ⟨.promoted, false, st⟩
    | none =>
      let v := validateWithAlpaca st symbol assetTradable
      ⟨if v.isValid then .promoted else .dropped, v.networkUsed, v.state⟩

/-- Embedding of the validation path `gatherSECFilings` runs before emitting
a `Signal` for a resolved ticker (gatherers/sec.ts lines 143-148).  Unlike
the Reddit gatherer it never consults `isKnownSecTicker`. -/
def secValidationGate (st : TickerCacheState) (symbol : String)
    (assetTradable : Option Bool) : GateStep :=
  match getCachedValidation st symbol with
  | some false => ⟨.dropped, false, st⟩
  | some true => ⟨.promoted, false, st⟩
  | none =>
    let v := validateWithAlpaca st symbol assetTradable
    ⟨if v.isValid then .promoted else .dropped, v.networkUsed, v.state⟩

/-! ### gatherers/twitter.ts — confirmation lookups under a daily budget -/

/-- Daily Twitter read budget (`MAX_DAILY_READS`). -/
def MAX_DAILY_READS : Nat := 200

/-- Milliseconds in one day (`ONE_DAY_MS`). -/
def ONE_DAY_MS : Int := 86400000

/-- The two strategy-state keys backing the budget:
`twitterDailyReads` and `twitterDailyReadReset`. -/
structure TwitterBudgetState where
  twitterDailyReads : Nat
  twitterDailyReadReset : Int
deriving DecidableEq

/-- Result of `canSpendTwitterRead`: the verdict plus the possibly-reset
stored state. -/
structure BudgetCheck where
  ok : Bool
  state : TwitterBudgetState
deriving DecidableEq

/-- Embedding of `canSpendTwitterRead` (gatherers/twitter.ts lines 90-99):
when the stored reset timestamp is more than 24h old, both keys are reset
before the `reads < MAX_DAILY_READS` comparison. -/
def canSpendTwitterRead (now : Int) (st : TwitterBudgetState) : BudgetCheck :=
  if now - st.twitterDailyReadReset > ONE_DAY_MS then
    ⟨decide ((0 : Nat) < MAX_DAILY_READS), ⟨0, now⟩⟩
  else
    ⟨decide (st.twitterDailyReads < MAX_DAILY_READS), st⟩

/-- Embedding of `spendTwitterRead`. -/
def spendTwitterRead (st : TwitterBudgetState) (count : Nat) : TwitterBudgetState :=
  { st with twitterDailyReads := st.twitterDailyReads + count }

/-- The tweet fields `gatherTwitterConfirmation` reads.  The source derives
`weight` from a float expression involving `Math.log10`
(`min(1.5, log10(author_followers + 1) / 5) * min(1.3, 1 + (likes + 2 * retweets) / 1000)`,
a transcendental-valued quantity); it is embedded as an explicit per-tweet
input, which is all the aggregation logic depends on. -/
structure Tweet where
  text : List Char
  author : String
  author_followers : Nat
  retweets : Nat
  likes : Nat
  weight : ℚ
deriving DecidableEq

/-- Result of one `twitterSearchRecent` call: the tweets returned, whether a
network fetch happened, and the budget state afterwards. -/
structure SearchStep where
  tweets : List Tweet
  fetched : Bool
  state : TwitterBudgetState
deriving DecidableEq

/-- Embedding of `twitterSearchRecent` (gatherers/twitter.ts lines 113-186).
`response` is the payload the network call would yield: `none` for a non-OK
response or a thrown error (which return `[]` without spending a read),
`some tws` for a parsed response (the read is spent after parsing). -/
def twitterSearchRecent (enabled : Bool) (now : Int) (st : TwitterBudgetState)
    (response : Option (List Tweet)) : SearchStep :=
  if !enabled then ⟨[], false, st⟩
  else
    let c := canSpendTwitterRead now st
    if !c.ok then ⟨[], false, c.state⟩
    else
      match response with
      | none => ⟨[], true, c.state⟩
      | some tws => ⟨tws, true, spendTwitterRead c.state 1⟩

/-- Embedding of the `TwitterConfirmation` record; highlights carry
`(author, first 150 chars of text, likes)`. -/
structure TwitterConfirmation where
  symbol : String
  tweet_count : Nat
  sentiment : ℚ
  confirms_existing : Bool
  highlights : List (String × List Char × Nat)
  timestamp : Int
deriving DecidableEq

/-- Bullish keywords of the confirmation scorer (`bullWords`). -/
def twitterBullWords : List (List Char) :=
  [ "buy".data, "call".data, "long".data, "bullish".data, "upgrade".data,
    "beat".data, "squeeze".data, "moon".data, "breakout".data ]

/-- Bearish keywords of the confirmation scorer (`bearWords`). -/
def twitterBearWords : List (List Char) :=
  [ "sell".data, "put".data, "short".data, "bearish".data, "downgrade".data,
    "miss".data, "crash".data, "dump".data, "breakdown".data ]

/-- Per-tweet polarity: `+1` for each bull word present in the lower-cased
text, `-1` for each bear word present. -/
def tweetSentimentScore (text : List Char) : Int :=
  (countPresent twitterBullWords (toLowerList text) : Int) -
    (countPresent twitterBearWords (toLowerList text) : Int)

/-- Accumulator of the confirmation loop. -/
structure ConfirmAccum where
  bullish : ℚ
  bearish : ℚ
  totalWeight : ℚ
  highlights : List (String × List Char × Nat)
deriving DecidableEq

/-- One iteration of the `for (const tweet of tweets)` loop of
`gatherTwitterConfirmation` (gatherers/twitter.ts lines 235-256). -/
def accumTweet (acc : ConfirmAccum) (tw : Tweet) : ConfirmAccum :=
  let s := tweetSentimentScore tw.text
  let bullish := if s > 0 then acc.bullish + tw.weight else acc.bullish
  let bearish := if s < 0 then acc.bearish + tw.weight else acc.bearish
  let highlights :=
    if tw.likes > 50 ∨ tw.author_followers > 10000 then
      acc.highlights ++ [(tw.author, tw.text.take 150, tw.likes)]
    else acc.highlights
  ⟨bullish, bearish, acc.totalWeight + tw.weight, highlights⟩

/-- The confirmation record built from a nonempty tweet list
(gatherers/twitter.ts lines 258-270).  Float literals 0.2 are exact 1/5. -/
def computeConfirmation (symbol : String) (now : Int) (existingSentiment : ℚ)
    (tweets : List Tweet) : TwitterConfirmation :=
  let acc := tweets.foldl accumTweet ⟨0, 0, 0, []⟩
  let twitterSentiment := if acc.totalWeight > 0
    then (acc.bullish - acc.bearish) / acc.totalWeight else 0
  let twitterBullish := twitterSentiment > 2/10
  let twitterBearish := twitterSentiment < -(2/10)
  let existingBullish := existingSentiment > 0
  { symbol := symbol
    tweet_count := tweets.length
    sentiment := twitterSentiment
    confirms_existing :=
      decide ((twitterBullish ∧ existingBullish) ∨ (twitterBearish ∧ ¬existingBullish))
    highlights := acc.highlights.take 3
    timestamp := now }

/-- Result of one `gatherTwitterConfirmation` call: the returned confirmation
(if any), whether a network fetch happened, and the budget state afterwards.
(The write of a fresh result into the per-symbol cache is observability for
later cycles and is determined by `result` and `fetched`.) -/
structure ConfirmationStep where
  result : Option TwitterConfirmation
  fetched : Bool
  budget : TwitterBudgetState
deriving DecidableEq

/-- The fetch-and-score tail of `gatherTwitterConfirmation`, reached when no
fresh cached result exists. -/
def confirmationFetch (enabled : Bool) (now : Int) (st : TwitterBudgetState)
    (symbol : String) (existingSentiment : ℚ) (response : Option (List Tweet)) :
    ConfirmationStep :=
  let s := twitterSearchRecent enabled now st response
  if s.tweets.length = 0 then ⟨none, s.fetched, s.state⟩
  else ⟨some (computeConfirmation symbol now existingSentiment s.tweets), s.fetched, s.state⟩

/-- Embedding of `gatherTwitterConfirmation` (gatherers/twitter.ts lines
194-281).  Gates in source order: credential flag, daily budget (with its
reset side effect), minimum absolute existing sentiment (0.3 = 3/10), then
the 300s per-symbol cache (`cached` is the stored entry for this symbol). -/
def gatherTwitterConfirmation (enabled : Bool) (now : Int) (st : TwitterBudgetState)
    (cached : Option TwitterConfirmation) (symbol : String) (existingSentiment : ℚ)
    (response : Option (List Tweet)) : ConfirmationStep :=
  if !enabled then ⟨none, false, st⟩
  else
    let c := canSpendTwitterRead now st
    if !c.ok then ⟨none, false, c.state⟩
    else if |existingSentiment| < 3/10 then ⟨none, false, c.state⟩
    else
      match cached with
      | some prev =>
        if now - prev.timestamp < 300000 then ⟨some prev, false, c.state⟩
        else confirmationFetch enabled now c.state symbol existingSentiment response
      | none => confirmationFetch enabled now c.state symbol existingSentiment response

/-! ### helpers/ticker.ts — ticker extraction

The source runs the regular expression

  `/\x24([A-Z]{1,5})\b|\b([A-Z]{2,5})\b(?=\s+(?:calls?|puts?|stock|shares?|moon|rocket|yolo|buy|sell|long|short))/gi`

in an `exec` loop.  The embedding below reproduces the ECMAScript matching
semantics for this particular pattern: scan left to right, at each index try
the cashtag alternative first, take the leftmost match, and resume scanning
after the end of `match[0]`.  Within a maximal letter run the `\b` after the
capture can only hold at the end of the run, so the greedy quantifier with
backtracking degenerates to: capture a whole maximal letter run of length in
range, with a non-word character (or end of input) after it. -/

/-- ECMAScript `\w` (word character): ASCII letter, digit, or underscore. -/
def isWordChar (c : Char) : Bool := c.isAlpha || c.isDigit || c = '_'

/-- ECMAScript `\s` on the ASCII range: space, tab, and the line terminators. -/
def isSpaceChar (c : Char) : Bool :=
  c = ' ' || c = '\t' || c = '\n' || c = '\r' || c = '\x0b' || c = '\x0c'

/-- Word boundary after a letter just consumed: end of input or a non-word
character next. -/
def boundaryAfter (rest : List Char) : Bool :=
  match rest with
  | [] => true
  | c :: _ => !(isWordChar c)

/-- Stems of the context-keyword alternation
`calls?|puts?|stock|shares?|moon|rocket|yolo|buy|sell|long|short`: the
optional trailing `s` makes each alternative match exactly when its stem is a
prefix of the remaining input. -/
def keywordStems : List (List Char) :=
  [ "call".data, "put".data, "stock".data, "share".data, "moon".data,
    "rocket".data, "yolo".data, "buy".data, "sell".data, "long".data,
    "short".data ]

/-- The lookahead `(?=\s+(?:calls?|...))`: at least one whitespace character,
then a keyword stem (case-insensitively).  Keywords contain no whitespace, so
only the maximal whitespace munch can succeed. -/
def lookaheadOK (rest : List Char) : Bool :=
  let ws := rest.takeWhile isSpaceChar
  let after := toLowerList (rest.drop ws.length)
  decide (1 ≤ ws.length) && keywordStems.any (fun k => k.isPrefixOf after)

/-- One regex match: the captured letters and the input after `match[0]`. -/
structure RegexHit where
  capture : List Char
  rest : List Char
deriving DecidableEq

/-- The cashtag alternative `\x24([A-Z]{1,5})\b` (case-insensitive): a
dollar sign, then a maximal letter run of length 1-5 whose end is a word
boundary. -/
def tryCashtagAlt (s : List Char) : Option RegexHit :=
  match s with
  | '$' :: t =>
    let run := t.takeWhile Char.isAlpha
    if decide (1 ≤ run.length) && decide (run.length ≤ 5) &&
        boundaryAfter (t.drop run.length) then
      some ⟨run, t.drop run.length⟩
    else none
  | _ => none

/-- The context alternative `\b([A-Z]{2,5})\b(?=...)` (case-insensitive):
at a word boundary (the previous character, if any, is not a word
character), a maximal letter run of length 2-5 ending at a word boundary and
followed by the keyword lookahead. -/
def tryContextAlt (prevIsWord : Bool) (s : List Char) : Option RegexHit :=
  if prevIsWord then none
  else
    let run := s.takeWhile Char.isAlpha
    if decide (2 ≤ run.length) && decide (run.length ≤ 5) &&
        boundaryAfter (s.drop run.length) && lookaheadOK (s.drop run.length) then
      some ⟨run, s.drop run.length⟩
    else none

/-- The `regex.exec` loop: collect captures left to right, resuming after
each match.  `fuel` bounds the recursion by the input length (every step
consumes at least one character); `prevIsWord` tracks the character before
the current position for the `\b` of the context alternative (after a match
it is a letter). -/
def scanRegex (prevIsWord : Bool) (s : List Char) : Nat → List (List Char)
  | 0 => []
  | fuel + 1 =>
    match tryCashtagAlt s with
    | some hit => hit.capture :: scanRegex true hit.rest fuel
    | none =>
      match tryContextAlt prevIsWord s with
      | some hit => hit.capture :: scanRegex true hit.rest fuel
      | none =>
        match s with
        | [] => []
        | c :: t => scanRegex (isWordChar c) t fuel

/-- Embedding of `TICKER_BLACKLIST` (helpers/ticker.ts lines 36-321), in
source order; the JS `Set` constructor makes the few duplicated entries
harmless. -/
def TICKER_BLACKLIST : List (List Char) :=
  [ "CEO".data, "CFO".data, "COO".data, "CTO".data, "IPO".data, "EPS".data,
    "GDP".data, "SEC".data, "FDA".data, "USA".data, "USD".data, "ETF".data,
    "NYSE".data, "API".data, "ATH".data, "ATL".data, "IMO".data, "FOMO".data,
    "YOLO".data, "DD".data, "TA".data, "FA".data, "ROI".data, "PE".data,
    "PB".data, "PS".data, "EV".data, "DCF".data, "WSB".data, "RIP".data,
    "LOL".data, "OMG".data, "WTF".data, "FUD".data, "HODL".data, "APE".data,
    "MOASS".data, "DRS".data, "NFT".data, "DAO".data,
    "THE".data, "AND".data, "FOR".data, "ARE".data, "BUT".data, "NOT".data,
    "YOU".data, "ALL".data, "CAN".data, "HER".data, "WAS".data, "ONE".data,
    "OUR".data, "OUT".data, "DAY".data, "HAD".data, "HAS".data, "HIS".data,
    "HOW".data, "ITS".data, "LET".data, "MAY".data, "NEW".data, "NOW".data,
    "OLD".data, "SEE".data, "WAY".data, "WHO".data, "BOY".data, "DID".data,
    "GET".data, "HIM".data, "HIT".data, "LOW".data, "MAN".data, "RUN".data,
    "SAY".data, "SHE".data, "TOO".data, "USE".data, "DAD".data, "MOM".data,
    "GOT".data, "PUT".data, "SAW".data, "SAT".data, "SET".data, "SIT".data,
    "TRY".data, "THAT".data, "THIS".data, "WITH".data, "HAVE".data,
    "FROM".data, "THEY".data, "BEEN".data, "CALL".data, "WILL".data,
    "EACH".data, "MAKE".data, "LIKE".data, "TIME".data, "JUST".data,
    "KNOW".data, "TAKE".data, "COME".data, "MADE".data, "FIND".data,
    "MORE".data, "LONG".data, "HERE".data, "MANY".data, "SOME".data,
    "THAN".data, "THEM".data, "THEN".data, "ONLY".data, "OVER".data,
    "SUCH".data, "YEAR".data, "INTO".data, "MOST".data, "ALSO".data,
    "BACK".data, "GOOD".data, "WELL".data, "EVEN".data, "WANT".data,
    "GIVE".data, "MUCH".data, "WORK".data, "FIRST".data, "AFTER".data,
    "AS".data, "AT".data, "BE".data, "BY".data, "DO".data, "GO".data,
    "IF".data, "IN".data, "IS".data, "IT".data, "MY".data, "NO".data,
    "OF".data, "ON".data, "OR".data, "SO".data, "TO".data, "UP".data,
    "US".data, "WE".data, "AN".data, "AM".data, "AH".data, "OH".data,
    "OK".data, "HI".data, "YA".data, "YO".data,
    "BULL".data, "BEAR".data, "CALL".data, "PUTS".data, "HOLD".data,
    "SELL".data, "MOON".data, "PUMP".data, "DUMP".data, "BAGS".data,
    "TEND".data,
    "START".data, "ABOUT".data, "NAME".data, "NEXT".data, "PLAY".data,
    "LIVE".data, "GAME".data, "BEST".data, "LINK".data, "READ".data,
    "POST".data, "NEWS".data, "FREE".data, "LOOK".data, "HELP".data,
    "OPEN".data, "FULL".data, "VIEW".data, "REAL".data, "SEND".data,
    "HIGH".data, "DROP".data, "FAST".data, "SAFE".data, "RISK".data,
    "TURN".data, "PLAN".data, "DEAL".data, "MOVE".data, "HUGE".data,
    "EASY".data, "HARD".data, "LATE".data, "WAIT".data, "SOON".data,
    "STOP".data, "EXIT".data, "GAIN".data, "LOSS".data, "GROW".data,
    "FALL".data, "JUMP".data, "KEEP".data, "COPY".data, "EDIT".data,
    "SAVE".data, "NOTE".data, "TIPS".data, "IDEA".data, "PLUS".data,
    "ZERO".data, "SELF".data, "BOTH".data, "BETA".data, "TEST".data,
    "INFO".data, "DATA".data, "CASH".data, "WHAT".data, "WHEN".data,
    "WHERE".data, "WHY".data, "WATCH".data, "LOVE".data, "HATE".data,
    "TECH".data, "HOPE".data, "FEAR".data, "WEEK".data, "LAST".data,
    "PART".data, "SIDE".data, "STEP".data, "SURE".data, "TELL".data,
    "THINK".data, "TOLD".data, "TRUE".data, "TURN".data, "TYPE".data,
    "UNIT".data, "USED".data, "VERY".data, "WANT".data, "WENT".data,
    "WERE".data, "YEAH".data, "YOUR".data, "ELSE".data, "AWAY".data,
    "OTHER".data, "PRICE".data, "THEIR".data, "STILL".data, "CHEAP".data,
    "THESE".data, "LEAP".data, "EVERY".data, "SINCE".data, "BEING".data,
    "THOSE".data, "DOING".data, "COULD".data, "WOULD".data, "SHOULD".data,
    "MIGHT".data, "MUST".data, "SHALL".data ]

/-- Upper-casing of a character list, mirroring JS `toUpperCase` on ASCII. -/
def toUpperList (s : List Char) : List Char := s.map Char.toUpper

/-- The filter-and-insert step applied to each capture by `extractTickers`:
upper-case, keep length 2-5, reject both blacklists, and add to the `Set`
(first insertion wins, order preserved). -/
def insertTicker (customSet : List (List Char)) (acc : List (List Char))
    (cap : List Char) : List (List Char) :=
  let ticker := toUpperList cap
  if decide (2 ≤ ticker.length) && decide (ticker.length ≤ 5) &&
      !(TICKER_BLACKLIST.contains ticker) && !(customSet.contains ticker) &&
      !(acc.contains ticker) then
    acc ++ [ticker]
  else acc

/-- Embedding of `extractTickers` (helpers/ticker.ts lines 329-342). -/
def extractTickers (text : List Char) (customBlacklist : List (List Char)) :
    List (List Char) :=
  let customSet := customBlacklist.map toUpperList
  (scanRegex false text text.length).foldl (insertTicker customSet) []

/-! ### Concrete fixtures used by witnesses and counterexamples -/

/-- A structurally valid configuration used by concrete instantiations. -/
def cfgA : AgentConfig :=
  { max_positions := 2
    min_analyst_confidence := 1/2
    position_size_pct_of_cash := 10
    max_position_value := 100000
    options_enabled := false
    options_min_confidence := 8/10
    options_take_profit_pct := 50
    options_stop_loss_pct := 50
    take_profit_pct := 20
    stop_loss_pct := 10
    stale_position_enabled := true
    stale_min_hold_hours := 4
    stale_max_hold_days := 5
    stale_mid_hold_days := 2
    stale_mid_min_gain_pct := 3
    stale_min_gain_pct := 5
    stale_social_volume_decay := 3/10 }

/-- The base configuration with options trading enabled. -/
def cfgOpt : AgentConfig := { cfgA with options_enabled := true }

/-- A BUY research verdict with the given symbol and confidence. -/
def mkBuy (s : String) (c : ℚ) : ResearchResult :=
  ⟨s, .BUY, c, .good, "momentum"⟩

/-- Five BUY verdicts with confidences 0.9, 0.8, 0.7, 0.6, 0.5. -/
def researchFive : List ResearchResult :=
  [ mkBuy ("AAA") (9/10), mkBuy ("BBB") (8/10), mkBuy ("CCC") (7/10),
    mkBuy ("DDD") (6/10), mkBuy ("EEE") (5/10) ]

/-- An options position whose cost-basis P&L (100%) is far above the
take-profit threshold while its entry-price P&L is only 10%. -/
def posOptX : Position :=
  { symbol := "OPTX", asset_class := "us_option", market_value := 300
    unrealized_pl := 150, avg_entry_price := 100, current_price := 110 }

/-- An equity position with cost-basis P&L 30%. -/
def posTPX : Position :=
  { symbol := "TPX", asset_class := "us_equity", market_value := 130
    unrealized_pl := 30, avg_entry_price := 10, current_price := 13 }

/-- An entry record: opened at t = 0 at price 100 with social volume 1000. -/
def entryA : PositionEntry := ⟨0, 100, 1000⟩

/-- A cache state whose authoritative SEC set contains ACME and whose
per-symbol validation cache is empty. -/
def stSecA : TickerCacheState := ⟨some [ "ACME" ], []⟩

/-- A neutral-text tweet of weight 1 (weight 1 is exactly realizable in the
source: 99999 followers gives `min(1.5, log10(100000)/5) = 1` and zero
likes/retweets give engagement factor 1). -/
def neutralTweet : Tweet := ⟨"hello".data, "u", 9999, 0, 0, 1⟩

/-- A bullish-text tweet of weight 1. -/
def bullTweet : Tweet := ⟨"buy the dip".data, "v", 9999, 0, 0, 1⟩

/-- One bullish tweet among nine neutral ones: weighted confirmation
sentiment 1/10. -/
def tweetsTen : List Tweet :=
  [ bullTweet, neutralTweet, neutralTweet, neutralTweet, neutralTweet,
    neutralTweet, neutralTweet, neutralTweet, neutralTweet, neutralTweet ]

end Mahoraga

namespace Mahoraga

/-! ### Shared helper lemmas -/

/-- Facts about the guarded ratio `(b - r) / (b + r)` over natural counts. -/
theorem ratioFacts (b r : Nat) :
    (b + r ≠ 0 → -1 ≤ ((b : ℚ) - r) / ((b : ℚ) + r) ∧ ((b : ℚ) - r) / ((b : ℚ) + r) ≤ 1) ∧
    (0 < b → r = 0 → ((b : ℚ) - r) / ((b : ℚ) + r) = 1) ∧
    (0 < r → b = 0 → ((b : ℚ) - r) / ((b : ℚ) + r) = -1) := by
  refine ⟨fun h => ?_, fun hb hr => ?_, fun hr hb => ?_⟩
  · have hpos : (0 : ℚ) < (b : ℚ) + r := by
      have : 0 < b + r := Nat.pos_of_ne_zero h
      exact_mod_cast this
    constructor
    · rw [le_div_iff₀ hpos]
      have hb : (0 : ℚ) ≤ b := by positivity
      linarith
    · rw [div_le_one hpos]
      have hr : (0 : ℚ) ≤ r := by positivity
      linarith
  · subst hr
    have hb0 : ((b : ℚ)) ≠ 0 := by
      have : (0 : ℚ) < (b : ℚ) := by exact_mod_cast hb
      exact ne_of_gt this
    push_cast
    simp [div_self hb0]
  · subst hb
    have hr0 : ((r : ℚ)) ≠ 0 := by
      have : (0 : ℚ) < (r : ℚ) := by exact_mod_cast hr
      exact ne_of_gt this
    push_cast
    rw [zero_sub, zero_add, neg_div, div_self hr0]

/-- C9: for every input text, `detectSentiment` returns
`(bullCount - bearCount) / (bullCount + bearCount)` — where the counts are
the numbers of words of the fixed bullish and bearish lists occurring
case-insensitively as substrings of the text — and exactly 0 when both
counts are zero; the result always lies in [-1, 1], is 1 when only bullish
keywords are present, and -1 when only bearish keywords are present. -/
theorem detectSentiment_spec (text : List Char) :
    (countPresent bullishWords (toLowerList text) +
        countPresent bearishWords (toLowerList text) = 0 →
      detectSentiment text = 0) ∧
    (countPresent bullishWords (toLowerList text) +
        countPresent bearishWords (toLowerList text) ≠ 0 →
      detectSentiment text =
        ((countPresent bullishWords (toLowerList text) : ℚ) -
            (countPresent bearishWords (toLowerList text) : ℚ)) /
          ((countPresent bullishWords (toLowerList text) : ℚ) +
            (countPresent bearishWords (toLowerList text) : ℚ))) ∧
    (-1 ≤ detectSentiment text ∧ detectSentiment text ≤ 1) ∧
    (0 < countPresent bullishWords (toLowerList text) →
      countPresent bearishWords (toLowerList text) = 0 →
      detectSentiment text = 1) ∧
    (0 < countPresent bearishWords (toLowerList text) →
      countPresent bullishWords (toLowerList text) = 0 →
      detectSentiment text = -1) := by
  set b := countPresent bullishWords (toLowerList text) with hb
  set r := countPresent bearishWords (toLowerList text) with hr
  have hval : detectSentiment text =
      if b + r = 0 then 0 else ((b : ℚ) - r) / ((b + r : Nat) : ℚ) := by
    simp only [detectSentiment, ← hb, ← hr]
  have hfacts := ratioFacts b r
  refine ⟨fun h => ?_, fun h => ?_, ?_, fun h1 h2 => ?_, fun h1 h2 => ?_⟩
  · rw [hval, if_pos h]
  · rw [hval, if_neg h]
    push_cast
    ring_nf
  · by_cases h : b + r = 0
    · rw [hval, if_pos h]
      norm_num
    · rw [hval, if_neg h]
      have := hfacts.1 h
      push_cast at this ⊢
      exact this
  · have h : b + r ≠ 0 := by omega
    rw [hval, if_neg h]
    have := hfacts.2.1 h1 h2
    push_cast at this ⊢
    exact this
  · have h : b + r ≠ 0 := by omega
    rw [hval, if_neg h]
    have := hfacts.2.2 h1 h2
    push_cast at this ⊢
    exact this

/-- Witness for C9 at the concrete text "moon": one bullish keyword, no
bearish keyword, sentiment exactly 1. -/
theorem detectSentiment_spec_witness :
    0 < countPresent bullishWords (toLowerList ("moon".data)) ∧
      countPresent bearishWords (toLowerList ("moon".data)) = 0 ∧
      detectSentiment ("moon".data) = 1 :=
  ⟨by decide, by decide,
    (detectSentiment_spec ("moon".data)).2.2.2.1 (by decide) (by decide)⟩

/-! ### Staleness engine lemmas -/

/-- The time component is nonnegative whenever the mid threshold is below
the max threshold. -/
theorem timeScore_nonneg (cfg : AgentConfig) (hd : ℚ)
    (h : cfg.stale_mid_hold_days < cfg.stale_max_hold_days) :
    0 ≤ timeScore cfg hd := by
  unfold timeScore
  split_ifs with h1 h2
  · norm_num
  · apply div_nonneg <;> linarith
  · exact le_refl 0

theorem priceScore_nonneg (cfg : AgentConfig) (p hd : ℚ) : 0 ≤ priceScore cfg p hd := by
  unfold priceScore
  split_ifs with h1 h2
  · exact le_min (by norm_num) (by positivity)
  · norm_num
  · exact le_refl 0

theorem volumeScore_nonneg (cfg : AgentConfig) (v : ℚ) : 0 ≤ volumeScore cfg v := by
  unfold volumeScore
  split_ifs <;> norm_num

theorem divChecked_of_ne (a b : ℚ) (h : b ≠ 0) : divChecked a b = some (a / b) := by
  unfold divChecked
  exact if_neg h

/-- The instrumented P&L computation succeeds and yields the source value. -/
theorem pnlChecked (p c : ℚ) :
    (if p > 0 then (divChecked (c - p) p).map (fun q => q * 100) else some 0) =
      some (if p > 0 then (c - p) / p * 100 else 0) := by
  by_cases hp : p > 0
  · rw [if_pos hp, if_pos hp, divChecked_of_ne _ _ (ne_of_gt hp)]
    rfl
  · rw [if_neg hp, if_neg hp]

/-- The instrumented time component succeeds and yields `timeScore`. -/
theorem timeScoreChecked (cfg : AgentConfig) (hd : ℚ)
    (hden : cfg.stale_max_hold_days - cfg.stale_mid_hold_days ≠ 0) :
    (if hd ≥ cfg.stale_max_hold_days then some (40 : ℚ)
      else if hd ≥ cfg.stale_mid_hold_days then
        divChecked (20 * (hd - cfg.stale_mid_hold_days))
          (cfg.stale_max_hold_days - cfg.stale_mid_hold_days)
      else some 0) = some (timeScore cfg hd) := by
  unfold timeScore
  split_ifs with h1 h2
  · rfl
  · exact divChecked_of_ne _ _ hden
  · rfl

/-- The instrumented volume ratio succeeds and yields the source value. -/
theorem volChecked (sv vol : ℚ) :
    (if vol > 0 then divChecked sv vol else some 1) =
      some (if vol > 0 then sv / vol else 1) := by
  by_cases hv : vol > 0
  · rw [if_pos hv, if_pos hv, divChecked_of_ne _ _ (ne_of_gt hv)]
  · rw [if_neg hv, if_neg hv]

/-- C5: with an entry record and hold time at or above the minimum hold
hours, `isStale` holds exactly when the staleness score reaches 70, or the
hold time is at/above the max-hold threshold (the code and the time
component treat this threshold inclusively) while P&L is below the
minimum-gain floor. -/
theorem analyzeStaleness_isStale_iff (now currentPrice currentSocialVolume : ℚ)
    (e : PositionEntry) (cfg : AgentConfig)
    (hmin : (now - e.entry_time) / (1000 * 60 * 60) ≥ cfg.stale_min_hold_hours) :
    (analyzeStaleness now currentPrice currentSocialVolume (some e) cfg).isStale = true ↔
      ((analyzeStaleness now currentPrice currentSocialVolume (some e) cfg).staleness_score ≥ 70 ∨
        ((now - e.entry_time) / (1000 * 60 * 60) / 24 ≥ cfg.stale_max_hold_days ∧
          (if e.entry_price > 0
            then (currentPrice - e.entry_price) / e.entry_price * 100
            else 0) < cfg.stale_min_gain_pct)) := by
  have hnl : ¬ ((now - e.entry_time) / (1000 * 60 * 60) < cfg.stale_min_hold_hours) :=
    not_lt.mpr hmin
  simp only [analyzeStaleness, if_neg hnl]
  split <;> simp_all

/-- Witness for C5: a position held 240 hours (10 days) with price 90 versus
entry 100 and decayed social volume is stale, and the characterization
applies at this input. -/
theorem analyzeStaleness_isStale_iff_witness :
    ((analyzeStaleness 864000000 90 100 (some entryA) cfgA).isStale = true ↔
      ((analyzeStaleness 864000000 90 100 (some entryA) cfgA).staleness_score ≥ 70 ∨
        ((864000000 - entryA.entry_time) / (1000 * 60 * 60) / 24 ≥ cfgA.stale_max_hold_days ∧
          (if entryA.entry_price > 0
            then (90 - entryA.entry_price) / entryA.entry_price * 100
            else 0) < cfgA.stale_min_gain_pct))) :=
  analyzeStaleness_isStale_iff 864000000 90 100 entryA cfgA
    (by norm_num [entryA, cfgA])

/-- Closed form of the staleness score of a held position. -/
theorem analyzeStaleness_score_eq (now currentPrice currentSocialVolume : ℚ)
    (e : PositionEntry) (cfg : AgentConfig) :
    (analyzeStaleness now currentPrice currentSocialVolume (some e) cfg).staleness_score =
      if (now - e.entry_time) / (1000 * 60 * 60) < cfg.stale_min_hold_hours then 0
      else min 100
        (timeScore cfg ((now - e.entry_time) / (1000 * 60 * 60) / 24) +
          priceScore cfg
            (if e.entry_price > 0
              then (currentPrice - e.entry_price) / e.entry_price * 100 else 0)
            ((now - e.entry_time) / (1000 * 60 * 60) / 24) +
          volumeScore cfg
            (if e.entry_social_volume > 0
              then currentSocialVolume / e.entry_social_volume else 1)) := by
  simp only [analyzeStaleness]
  split_ifs <;> rfl

/-- C6 under a structurally valid configuration: the division-instrumented
variant reaches no division by zero and agrees with `analyzeStaleness`; a
position held 0 hours is never stale; and the staleness score is clamped to
[0, 100]. -/
theorem analyzeStaleness_safe (now currentPrice currentSocialVolume : ℚ)
    (entry : Option PositionEntry) (cfg : AgentConfig)
    (hmin : 0 < cfg.stale_min_hold_hours)
    (_hmid : 0 ≤ cfg.stale_mid_hold_days)
    (hmax : cfg.stale_mid_hold_days < cfg.stale_max_hold_days) :
    analyzeStalenessChecked now currentPrice currentSocialVolume entry cfg =
      some (analyzeStaleness now currentPrice currentSocialVolume entry cfg) ∧
    (∀ e : PositionEntry, entry = some e → now = e.entry_time →
      (analyzeStaleness now currentPrice currentSocialVolume entry cfg).isStale = false) ∧
    (0 ≤ (analyzeStaleness now currentPrice currentSocialVolume entry cfg).staleness_score ∧
      (analyzeStaleness now currentPrice currentSocialVolume entry cfg).staleness_score ≤ 100) := by
  have hden : cfg.stale_max_hold_days - cfg.stale_mid_hold_days ≠ 0 :=
    sub_ne_zero.mpr (ne_of_gt hmax)
  refine ⟨?_, ?_, ?_⟩
  · cases entry with
    | none => rfl
    | some e =>
      simp only [analyzeStalenessChecked, analyzeStaleness,
        divChecked_of_ne _ _ (by norm_num : ((1000 : ℚ) * 60 * 60) ≠ 0),
        divChecked_of_ne _ _ (by norm_num : ((24 : ℚ)) ≠ 0),
        pnlChecked, timeScoreChecked _ _ hden, volChecked, Option.some_bind]
      split_ifs <;> rfl
  · rintro e rfl hnow
    have h0 : (e.entry_time - e.entry_time) / (1000 * 60 * 60) = 0 := by
      rw [sub_self, zero_div]
    simp only [analyzeStaleness, hnow, h0, if_pos hmin]
  · cases entry with
    | none => simp [analyzeStaleness]
    | some e =>
      rw [analyzeStaleness_score_eq]
      by_cases h1 : (now - e.entry_time) / (1000 * 60 * 60) < cfg.stale_min_hold_hours
      · rw [if_pos h1]
        norm_num
      · rw [if_neg h1]
        have t1 := timeScore_nonneg cfg (((now - e.entry_time) / (1000 * 60 * 60)) / 24) hmax
        have t2 := priceScore_nonneg cfg
          (if e.entry_price > 0 then (currentPrice - e.entry_price) / e.entry_price * 100 else 0)
          (((now - e.entry_time) / (1000 * 60 * 60)) / 24)
        have t3 := volumeScore_nonneg cfg
          (if e.entry_social_volume > 0 then currentSocialVolume / e.entry_social_volume else 1)
        exact ⟨le_min (by norm_num) (by linarith), min_le_left _ _⟩

/-- Witness for C6 at the base configuration with a held 10-day losing
position: the hypotheses hold and the checked evaluation succeeds. -/
theorem analyzeStaleness_safe_witness :
    analyzeStalenessChecked 864000000 90 100 (some entryA) cfgA =
      some (analyzeStaleness 864000000 90 100 (some entryA) cfgA) ∧
    0 ≤ (analyzeStaleness 864000000 90 100 (some entryA) cfgA).staleness_score := by
  have h := analyzeStaleness_safe 864000000 90 100 (some entryA) cfgA
    (by norm_num [cfgA]) (by norm_num [cfgA]) (by norm_num [cfgA])
  exact ⟨h.1, h.2.2.1⟩

/-! ### Exit selection -/

/-- Counterexample to C1: an options position whose cost-basis P&L
(`unrealized_pl / (market_value - unrealized_pl) * 100 = 100`) is at or
above every take-profit threshold of the configuration, yet exit selection
emits nothing for it, because options positions are evaluated on the
entry-price P&L `(current_price - avg_entry_price) / avg_entry_price * 100 = 10`
instead of the claimed formula. -/
theorem costBasisPl_options_counterexample :
    posOptX.asset_class = "us_option" ∧
    costBasisPlPct posOptX = 100 ∧
    cfgOpt.options_take_profit_pct ≤ 100 ∧
    cfgOpt.take_profit_pct ≤ 100 ∧
    (posOptX.current_price - posOptX.avg_entry_price) / posOptX.avg_entry_price * 100 = 10 ∧
    exitForPosition cfgOpt 0 (fun _ => 0) (fun _ => none) posOptX = none := by
  refine ⟨rfl, ?_, ?_, ?_, ?_, ?_⟩
  · norm_num [costBasisPlPct, posOptX]
  · norm_num [cfgOpt, cfgA]
  · norm_num [cfgOpt, cfgA]
  · norm_num [posOptX]
  · norm_num [exitForPosition, checkOptionsExit, posOptX, cfgOpt, cfgA]

/-- C1 amended: the cost-basis formula
`unrealized_pl / (market_value - unrealized_pl) * 100` governs the
take-profit and stop-loss comparisons for every non-options position, while
an options position is routed to `checkOptionsExit`, which compares the
entry-price P&L `(current_price - avg_entry_price) / avg_entry_price * 100`
against the options thresholds. -/
theorem plPct_formula_amended :
    (∀ (cfg : AgentConfig) (now : ℚ) (sv : String → ℚ)
        (en : String → Option PositionEntry) (pos : Position),
      pos.asset_class ≠ "us_option" →
      (costBasisPlPct pos ≥ cfg.take_profit_pct →
        exitForPosition cfg now sv en pos =
          some ⟨pos.symbol, .takeProfit (costBasisPlPct pos)⟩) ∧
      (costBasisPlPct pos < cfg.take_profit_pct →
        costBasisPlPct pos ≤ -cfg.stop_loss_pct →
        exitForPosition cfg now sv en pos =
          some ⟨pos.symbol, .stopLoss (costBasisPlPct pos)⟩)) ∧
    (∀ (cfg : AgentConfig) (now : ℚ) (sv : String → ℚ)
        (en : String → Option PositionEntry) (pos : Position),
      pos.asset_class = "us_option" →
      exitForPosition cfg now sv en pos = checkOptionsExit cfg pos) ∧
    (∀ (cfg : AgentConfig) (pos : Position), cfg.options_enabled = true →
      0 < pos.avg_entry_price →
      ((pos.current_price - pos.avg_entry_price) / pos.avg_entry_price * 100 ≤
          -cfg.options_stop_loss_pct →
        checkOptionsExit cfg pos = some ⟨pos.symbol,
          .optionStopLoss ((pos.current_price - pos.avg_entry_price) /
            pos.avg_entry_price * 100)⟩) ∧
      (-cfg.options_stop_loss_pct <
          (pos.current_price - pos.avg_entry_price) / pos.avg_entry_price * 100 →
        (pos.current_price - pos.avg_entry_price) / pos.avg_entry_price * 100 ≥
          cfg.options_take_profit_pct →
        checkOptionsExit cfg pos = some ⟨pos.symbol,
          .optionTakeProfit ((pos.current_price - pos.avg_entry_price) /
            pos.avg_entry_price * 100)⟩)) := by
  refine ⟨fun cfg now sv en pos hcls => ⟨fun htp => ?_, fun htp hsl => ?_⟩,
    fun cfg now sv en pos hcls => ?_, fun cfg pos hopt hpr => ⟨fun hsl => ?_, fun hsl htp => ?_⟩⟩
  · simp only [exitForPosition, if_neg hcls, if_pos htp]
  · simp only [exitForPosition, if_neg hcls, if_neg (not_le.mpr htp), if_pos hsl]
  · simp only [exitForPosition, if_pos hcls]
  · have hne : pos.avg_entry_price ≠ 0 := ne_of_gt hpr
    simp only [checkOptionsExit, hopt, Bool.not_true, Bool.false_eq_true, if_false,
      if_pos hne, if_pos hpr, if_pos hsl]
  · have hne : pos.avg_entry_price ≠ 0 := ne_of_gt hpr
    simp only [checkOptionsExit, hopt, Bool.not_true, Bool.false_eq_true, if_false,
      if_pos hne, if_pos hpr, if_neg (not_le.mpr hsl), if_pos htp]

/-- Witness for the amended C1 at a concrete equity position with cost-basis
P&L 30% against a 20% take-profit threshold. -/
theorem plPct_formula_amended_witness :
    exitForPosition cfgA 0 (fun _ => 0) (fun _ => none) posTPX =
      some ⟨posTPX.symbol, .takeProfit (costBasisPlPct posTPX)⟩ :=
  (plPct_formula_amended.1 cfgA 0 (fun _ => 0) (fun _ => none) posTPX
    (by decide)).1 (by norm_num [costBasisPlPct, posTPX, cfgA])

/-- C3: exit selection emits at most one candidate per position, every
candidate comes from some position, and the per-position rules fire in
strict precedence order — options rules for options instruments (only
options reasons can be emitted there), then take-profit (which wins even
when the position is simultaneously stale), then stop-loss, then staleness
only when enabled. -/
theorem exit_precedence (cfg : AgentConfig) (now : ℚ) (sv : String → ℚ)
    (en : String → Option PositionEntry) (positions : List Position) :
    (selectExits cfg now sv en positions).length ≤ positions.length ∧
    (∀ c ∈ selectExits cfg now sv en positions, ∃ pos ∈ positions,
      exitForPosition cfg now sv en pos = some c) ∧
    (∀ pos : Position, pos.asset_class ≠ "us_option" →
      costBasisPlPct pos ≥ cfg.take_profit_pct →
      (analyzeStaleness now pos.current_price (sv pos.symbol) (en pos.symbol) cfg).isStale
        = true →
      exitForPosition cfg now sv en pos =
        some ⟨pos.symbol, .takeProfit (costBasisPlPct pos)⟩) ∧
    (∀ pos : Position, pos.asset_class ≠ "us_option" →
      costBasisPlPct pos < cfg.take_profit_pct →
      costBasisPlPct pos ≤ -cfg.stop_loss_pct →
      exitForPosition cfg now sv en pos =
        some ⟨pos.symbol, .stopLoss (costBasisPlPct pos)⟩) ∧
    (∀ pos : Position, pos.asset_class ≠ "us_option" →
      costBasisPlPct pos < cfg.take_profit_pct →
      -cfg.stop_loss_pct < costBasisPlPct pos →
      cfg.stale_position_enabled = false →
      exitForPosition cfg now sv en pos = none) ∧
    (∀ pos : Position, pos.asset_class = "us_option" →
      exitForPosition cfg now sv en pos = checkOptionsExit cfg pos ∧
      ∀ c, checkOptionsExit cfg pos = some c →
        (∃ q, c.reason = .optionStopLoss q) ∨ (∃ q, c.reason = .optionTakeProfit q)) := by
  refine ⟨List.length_filterMap_le _ _, fun c hc => List.mem_filterMap.mp hc,
    fun pos hcls htp _ => ?_, fun pos hcls htp hsl => ?_,
    fun pos hcls htp hsl hoff => ?_, fun pos hcls => ⟨?_, fun c hsome => ?_⟩⟩
  · simp only [exitForPosition, if_neg hcls, if_pos htp]
  · simp only [exitForPosition, if_neg hcls, if_neg (not_le.mpr htp), if_pos hsl]
  · simp only [exitForPosition, if_neg hcls, if_neg (not_le.mpr htp),
      if_neg (not_le.mpr hsl), hoff, Bool.false_eq_true, if_false]
  · simp only [exitForPosition, if_pos hcls]
  · revert hsome
    simp only [checkOptionsExit]
    split_ifs <;> intro hsome <;>
      first
        | exact hsome.elim
        | exact Option.noConfusion hsome
        | exact Or.inl ⟨_, by rw [← Option.some.inj hsome]⟩
        | exact Or.inr ⟨_, by rw [← Option.some.inj hsome]⟩

/-- Witness for C3: a position simultaneously above take-profit and fully
stale reports the take-profit reason. -/
theorem exit_precedence_witness :
    (analyzeStaleness 864000000 posTPX.current_price 100 (some entryA) cfgA).isStale = true ∧
    exitForPosition cfgA 864000000 (fun _ => 100) (fun _ => some entryA) posTPX =
      some ⟨posTPX.symbol, .takeProfit (costBasisPlPct posTPX)⟩ := by
  have hstale :
      (analyzeStaleness 864000000 posTPX.current_price 100 (some entryA) cfgA).isStale
        = true := by
    norm_num [analyzeStaleness, timeScore, priceScore, volumeScore, entryA, cfgA,
      posTPX, min_def, abs]
  exact ⟨hstale,
    (exit_precedence cfgA 864000000 (fun _ => 100) (fun _ => some entryA) []).2.2.1
      posTPX (by decide) (by norm_num [costBasisPlPct, posTPX, cfgA]) hstale⟩

/-! ### Entry selection -/

theorem confDescInsert_mem (r a : ResearchResult) (l : List ResearchResult) :
    a ∈ confDescInsert r l ↔ a = r ∨ a ∈ l := by
  induction l with
  | nil => simp [confDescInsert]
  | cons x xs ih =>
    unfold confDescInsert
    split_ifs with h
    · simp
    · simp only [List.mem_cons, ih]
      tauto

theorem sortByConfDesc_mem (a : ResearchResult) (l : List ResearchResult) :
    a ∈ sortByConfDesc l ↔ a ∈ l := by
  induction l with
  | nil => simp [sortByConfDesc]
  | cons x xs ih =>
    simp only [sortByConfDesc, List.foldr_cons] at ih ⊢
    rw [confDescInsert_mem, ih, List.mem_cons]

theorem confDescInsert_pairwise (r : ResearchResult) (l : List ResearchResult)
    (h : l.Pairwise (fun a b => b.confidence ≤ a.confidence)) :
    (confDescInsert r l).Pairwise (fun a b => b.confidence ≤ a.confidence) := by
  induction l with
  | nil => simp [confDescInsert]
  | cons x xs ih =>
    rw [List.pairwise_cons] at h
    unfold confDescInsert
    split_ifs with hc
    · rw [List.pairwise_cons]
      refine ⟨fun b hb => ?_, List.pairwise_cons.mpr h⟩
      rcases List.mem_cons.mp hb with hb | hb
      · exact hb ▸ hc
      · exact le_trans (h.1 b hb) hc
    · rw [List.pairwise_cons]
      refine ⟨fun b hb => ?_, ih h.2⟩
      rcases (confDescInsert_mem r b xs).mp hb with hb | hb
      · exact hb ▸ le_of_not_le hc
      · exact h.1 b hb

theorem sortByConfDesc_pairwise (l : List ResearchResult) :
    (sortByConfDesc l).Pairwise (fun a b => b.confidence ≤ a.confidence) := by
  induction l with
  | nil => exact List.Pairwise.nil
  | cons x xs ih => exact confDescInsert_pairwise x _ ih

theorem entryLoop_length_le (cfg : AgentConfig) (cash : ℚ) (nHeld : Nat)
    (rs : List ResearchResult) (k : Nat) :
    (entryLoop cfg cash nHeld rs k).length ≤ rs.length := by
  induction rs generalizing k with
  | nil => simp [entryLoop]
  | cons r rest ih =>
    unfold entryLoop
    split_ifs with h1 h2
    · simp
    · exact le_trans (ih k) (by simp)
    · simpa using ih (k + 1)

theorem entryLoop_cap (cfg : AgentConfig) (cash : ℚ) (nHeld : Nat)
    (rs : List ResearchResult) (k : Nat) (h : nHeld + k < cfg.max_positions) :
    nHeld + k + (entryLoop cfg cash nHeld rs k).length ≤ cfg.max_positions := by
  induction rs generalizing k with
  | nil =>
    simp only [entryLoop, List.length_nil]
    omega
  | cons r rest ih =>
    unfold entryLoop
    split_ifs with h1 h2
    · omega
    · exact ih k h
    · by_cases h3 : nHeld + (k + 1) < cfg.max_positions
      · have := ih (k + 1) h3
        simp only [List.length_cons]
        omega
      · have h4 : nHeld + (k + 1) ≥ cfg.max_positions := by omega
        cases rest with
        | nil => simp [entryLoop]; omega
        | cons r2 rest2 =>
          unfold entryLoop
          rw [if_pos h4]
          simp only [List.length_cons, List.length_nil]
          omega

theorem entryLoop_sublist (cfg : AgentConfig) (cash : ℚ) (nHeld : Nat)
    (rs : List ResearchResult) (k : Nat) :
    ∃ rs' : List ResearchResult, rs'.Sublist rs ∧
      entryLoop cfg cash nHeld rs k = rs'.map (buildCandidate cfg cash) ∧
      ∀ r ∈ rs', ¬(entryNotional cfg cash r.confidence < 100) := by
  induction rs generalizing k with
  | nil => exact ⟨[], List.Sublist.refl _, rfl, by simp⟩
  | cons r rest ih =>
    unfold entryLoop
    split_ifs with h1 h2
    · exact ⟨[], List.nil_sublist _, rfl, by simp⟩
    · obtain ⟨rs', hsub, heq, hfloor⟩ := ih k
      exact ⟨rs', hsub.cons r, heq, hfloor⟩
    · obtain ⟨rs', hsub, heq, hfloor⟩ := ih (k + 1)
      refine ⟨r :: rs', hsub.cons₂ r, ?_, ?_⟩
      · simp [heq]
      · intro x hx
        rcases List.mem_cons.mp hx with hx | hx
        · exact hx ▸ h2
        · exact hfloor x hx

/-- C4: entry selection returns at most 3 candidates; it returns none when
the held-position count already reaches `max_positions` and otherwise never
lets held positions plus candidates exceed it; every candidate arises from a
BUY verdict meeting the minimum analyst confidence whose symbol is not
already held, carries notional
`min(cash * min(20, sizePct)/100 * confidence, max_position_value)` at or
above the 100 floor; candidates are ranked by descending confidence; and on
five BUY verdicts with confidences 0.9 … 0.5, `max_positions = 2` and no
held positions, exactly the top two by confidence are returned. -/
theorem selectEntries_spec (cfg : AgentConfig) (research : List ResearchResult)
    (positions : List Position) (account : Account) :
    ((selectEntries cfg research positions account).length ≤ 3) ∧
    (cfg.max_positions ≤ positions.length →
      selectEntries cfg research positions account = []) ∧
    (positions.length < cfg.max_positions →
      positions.length + (selectEntries cfg research positions account).length ≤
        cfg.max_positions) ∧
    (∀ c ∈ selectEntries cfg research positions account, ∃ r ∈ research,
      r.verdict = Verdict.BUY ∧ r.confidence ≥ cfg.min_analyst_confidence ∧
      c.symbol = r.symbol ∧ c.confidence = r.confidence ∧
      c.notional =
        min (account.cash * (min 20 cfg.position_size_pct_of_cash / 100) * r.confidence)
          cfg.max_position_value ∧
      ¬(c.notional < 100) ∧
      c.symbol ∉ positions.map (fun p => p.symbol)) ∧
    ((selectEntries cfg research positions account).Pairwise
      (fun a b => b.confidence ≤ a.confidence)) ∧
    (selectEntries cfgA researchFive [] ⟨100000⟩ =
      [ ⟨"AAA", 9/10, "momentum", 9000, false⟩, ⟨"BBB", 8/10, "momentum", 8000, false⟩ ]) := by
  refine ⟨?_, fun h => ?_, fun h => ?_, fun c hc => ?_, ?_, ?_⟩
  · by_cases hfull : positions.length ≥ cfg.max_positions
    · simp [selectEntries, if_pos hfull]
    · simp only [selectEntries, if_neg hfull]
      refine le_trans (entryLoop_length_le _ _ _ _ _) ?_
      simp
  · simp [selectEntries, if_pos h]
  · have key : ∀ rs : List ResearchResult,
        positions.length + (entryLoop cfg account.cash positions.length rs 0).length ≤
          cfg.max_positions := by
      intro rs
      have := entryLoop_cap cfg account.cash positions.length rs 0 (by omega)
      omega
    simp only [selectEntries, if_neg (not_le.mpr h)]
    exact key _
  · by_cases hfull : positions.length ≥ cfg.max_positions
    · rw [selectEntries, if_pos hfull] at hc
      exact absurd hc (List.not_mem_nil c)
    · simp only [selectEntries, if_neg hfull] at hc
      obtain ⟨rs', hsub, heq, hfloor⟩ := entryLoop_sublist cfg account.cash positions.length
        (List.take 3 (sortByConfDesc (((research.filter (fun r =>
            decide (r.verdict = Verdict.BUY) &&
            decide (r.confidence ≥ cfg.min_analyst_confidence)))).filter
          (fun r => !((positions.map (fun p => p.symbol)).contains r.symbol))))) 0
      rw [heq] at hc
      obtain ⟨r, hr, rfl⟩ := List.mem_map.mp hc
      have hr2 : r ∈ sortByConfDesc _ := List.mem_of_mem_take (hsub.subset hr)
      rw [sortByConfDesc_mem, List.mem_filter] at hr2
      obtain ⟨hr3, hp2⟩ := hr2
      rw [List.mem_filter] at hr3
      obtain ⟨hrin, hp1⟩ := hr3
      simp only [Bool.and_eq_true, decide_eq_true_eq] at hp1
      refine ⟨r, hrin, hp1.1, hp1.2, rfl, rfl, rfl, hfloor r hr, ?_⟩
      simpa [buildCandidate] using hp2
  · by_cases hfull : positions.length ≥ cfg.max_positions
    · simp [selectEntries, if_pos hfull]
    · simp only [selectEntries, if_neg hfull]
      obtain ⟨rs', hsub, heq, _⟩ := entryLoop_sublist cfg account.cash positions.length
        (List.take 3 (sortByConfDesc (((research.filter (fun r =>
            decide (r.verdict = Verdict.BUY) &&
            decide (r.confidence ≥ cfg.min_analyst_confidence)))).filter
          (fun r => !((positions.map (fun p => p.symbol)).contains r.symbol))))) 0
      rw [heq, List.pairwise_map]
      exact List.Pairwise.sublist hsub
        (List.Pairwise.sublist (List.take_sublist 3 _) (sortByConfDesc_pairwise _))
  · norm_num [selectEntries, sortByConfDesc, confDescInsert, entryLoop, buildCandidate,
      entryNotional, researchFive, mkBuy, cfgA]

/-- Witness for C4: a research list and account on which selection returns a
nonempty, correctly sized candidate list (the concrete top-2 instance). -/
theorem selectEntries_spec_witness :
    selectEntries cfgA researchFive [] ⟨100000⟩ =
      [ ⟨"AAA", 9/10, "momentum", 9000, false⟩, ⟨"BBB", 8/10, "momentum", 8000, false⟩ ] ∧
    (selectEntries cfgA researchFive [] ⟨100000⟩).length ≤ 3 ∧
    ([] : List Position).length < cfgA.max_positions ∧
    ([] : List Position).length + (selectEntries cfgA researchFive [] ⟨100000⟩).length ≤
      cfgA.max_positions := by
  have h := selectEntries_spec cfgA researchFive [] ⟨100000⟩
  have hlt : ([] : List Position).length < cfgA.max_positions := by
    norm_num [cfgA]
  exact ⟨h.2.2.2.2.2, h.1, hlt, h.2.2.1 hlt⟩

/-! ### Ticker validation cache -/

/-- Counterexample to C2: with ACME in the loaded authoritative SEC set and
an empty per-symbol validation cache, the SEC-filings gatherer still takes
the external network branch of `validateWithAlpaca` while promoting the
symbol, because its validation path never consults `isKnownSecTicker`. -/
theorem secGate_network_counterexample :
    isKnownSecTicker stSecA ("ACME") = true ∧
    getCachedValidation stSecA ("ACME") = none ∧
    (secValidationGate stSecA ("ACME") (some true)).networkUsed = true ∧
    (secValidationGate stSecA ("ACME") (some true)).outcome = GateOutcome.promoted := by
  refine ⟨by decide, by decide, by decide, by decide⟩

/-- C2 amended: the Reddit gatherer never performs the external
asset-tradability check for a symbol present in the loaded authoritative SEC
set — it promotes the aggregate with the cache untouched; the SEC-filings
gatherer consults only the per-symbol validation cache and can take the
network branch even for authoritative symbols (see the counterexample). -/
theorem redditGate_no_network (st : TickerCacheState) (symbol : String)
    (assetTradable : Option Bool) (h : isKnownSecTicker st symbol = true) :
    redditValidationGate st symbol assetTradable =
      ⟨GateOutcome.promoted, false, st⟩ := by
  simp [redditValidationGate, h]

/-- Witness for the amended C2 at the concrete authoritative symbol ACME:
even an external responder that would report the asset untradable is never
consulted. -/
theorem redditGate_no_network_witness :
    redditValidationGate stSecA ("ACME") (some false) =
      ⟨GateOutcome.promoted, false, stSecA⟩ :=
  redditGate_no_network stSecA ("ACME") (some false) (by decide)

/-! ### Twitter read budget and confirmation -/

/-- C7: in any state whose daily read counter has reached the 200 budget and
whose reset timestamp is at most 24h old, a confirmation lookup returns no
result and performs no fetch (and the search primitive likewise returns
empty without fetching); and whenever the reset timestamp is more than 24h
old, the counter is reset to 0 with the timestamp updated before the budget
comparison, so the check passes. -/
theorem twitter_budget_spec (enabled : Bool) (now : Int) (st : TwitterBudgetState)
    (cached : Option TwitterConfirmation) (symbol : String) (existing : ℚ)
    (response : Option (List Tweet)) :
    (MAX_DAILY_READS ≤ st.twitterDailyReads →
      now - st.twitterDailyReadReset ≤ ONE_DAY_MS →
      gatherTwitterConfirmation enabled now st cached symbol existing response =
        ⟨none, false, st⟩ ∧
      twitterSearchRecent enabled now st response = ⟨[], false, st⟩) ∧
    (ONE_DAY_MS < now - st.twitterDailyReadReset →
      canSpendTwitterRead now st = ⟨true, ⟨0, now⟩⟩) := by
  constructor
  · intro hreads hfresh
    have hcan : canSpendTwitterRead now st = ⟨false, st⟩ := by
      unfold canSpendTwitterRead
      rw [if_neg (not_lt.mpr hfresh)]
      rw [decide_eq_false (not_lt.mpr hreads)]
    constructor
    · cases enabled with
      | false => rfl
      | true => simp [gatherTwitterConfirmation, hcan]
    · cases enabled with
      | false => rfl
      | true => simp [twitterSearchRecent, hcan]
  · intro h
    unfold canSpendTwitterRead
    rw [if_pos h]
    rfl

/-- Witness for C7: a spent budget 1000 ms into the window blocks the
lookup, and a rollover one day plus one millisecond later resets it. -/
theorem twitter_budget_spec_witness :
    (gatherTwitterConfirmation true 1000 ⟨200, 0⟩ none ("ACME") (1/2)
        (some tweetsTen) = ⟨none, false, ⟨200, 0⟩⟩) ∧
    canSpendTwitterRead 86400001 ⟨200, 0⟩ = ⟨true, ⟨0, 86400001⟩⟩ :=
  ⟨((twitter_budget_spec true 1000 ⟨200, 0⟩ none ("ACME") (1/2)
      (some tweetsTen)).1 (by norm_num [MAX_DAILY_READS])
      (by norm_num [ONE_DAY_MS])).1,
    (twitter_budget_spec true 86400001 ⟨200, 0⟩ none ("ACME") (1/2)
      (some tweetsTen)).2 (by norm_num [ONE_DAY_MS])⟩

/-- The `confirms_existing` field of a freshly computed confirmation is the
dead-band sign test of the source. -/
theorem computeConfirmation_confirms (symbol : String) (now : Int)
    (existing : ℚ) (tweets : List Tweet) :
    ((computeConfirmation symbol now existing tweets).confirms_existing = true ↔
      (((computeConfirmation symbol now existing tweets).sentiment > 2/10 ∧
          existing > 0) ∨
        ((computeConfirmation symbol now existing tweets).sentiment < -(2/10) ∧
          ¬existing > 0))) := by
  simp only [computeConfirmation]
  rw [decide_eq_true_iff]

/-- C8 amended: for every confirmation freshly produced by the lookup (no
cached entry), `confirms_existing` is true iff the computed confirmation
sentiment exceeds the 0.2 dead-band in the direction of the existing
sentiment: above 0.2 with a positive existing sentiment, or below -0.2 with
a non-positive one.  Sentiment in the band [-0.2, 0.2] never confirms, even
when its sign agrees. -/
theorem confirms_existing_amended (enabled : Bool) (now : Int)
    (st : TwitterBudgetState) (symbol : String) (existing : ℚ)
    (response : Option (List Tweet)) (r : TwitterConfirmation)
    (h : (gatherTwitterConfirmation enabled now st none symbol existing
        response).result = some r) :
    (r.confirms_existing = true ↔
      ((r.sentiment > 2/10 ∧ existing > 0) ∨
        (r.sentiment < -(2/10) ∧ ¬existing > 0))) := by
  revert h
  simp only [gatherTwitterConfirmation, confirmationFetch]
  split_ifs <;> intro h <;>
    first
      | exact h.elim
      | (obtain rfl := Option.some.inj h
         exact computeConfirmation_confirms _ _ _ _)

/-- Counterexample to C8 as stated: one bullish tweet among nine neutral
ones of equal weight yields confirmation sentiment 1/10 — the same
(positive) sign as the existing sentiment 1/2 that triggered the lookup —
yet `confirms_existing` is false. -/
theorem confirms_existing_counterexample :
    ((gatherTwitterConfirmation true 0 ⟨0, 0⟩ none ("ACME") (1/2)
        (some tweetsTen)).result).map (fun r => (r.sentiment, r.confirms_existing)) =
      some (1/10, false) ∧
    ((0 : ℚ) < 1/10 ∧ (0 : ℚ) < 1/2) := by
  constructor
  · have hbull : tweetSentimentScore ("buy the dip".data) = 1 := by decide
    have hneut : tweetSentimentScore ("hello".data) = 0 := by decide
    norm_num [gatherTwitterConfirmation, canSpendTwitterRead, twitterSearchRecent,
      spendTwitterRead, confirmationFetch, computeConfirmation, accumTweet,
      tweetsTen, bullTweet, neutralTweet, hbull, hneut, MAX_DAILY_READS, ONE_DAY_MS,
      abs_of_pos]
  · norm_num

/-- Witness for the amended C8: a single bullish tweet gives sentiment 1,
above the dead-band, and the lookup confirms the positive existing
sentiment. -/
theorem confirms_existing_amended_witness :
    ((gatherTwitterConfirmation true 0 ⟨0, 0⟩ none ("ACME") (1/2)
        (some [ bullTweet ])).result).map (fun r => r.confirms_existing) =
      some true := by
  have hbull : tweetSentimentScore ("buy the dip".data) = 1 := by decide
  have h : (gatherTwitterConfirmation true 0 ⟨0, 0⟩ none ("ACME") (1/2)
      (some [ bullTweet ])).result = some ⟨"ACME", 1, 1, true, [], 0⟩ := by
    norm_num [gatherTwitterConfirmation, canSpendTwitterRead, twitterSearchRecent,
      spendTwitterRead, confirmationFetch, computeConfirmation, accumTweet,
      bullTweet, hbull, MAX_DAILY_READS, ONE_DAY_MS, abs_of_pos]
  have hiff := confirms_existing_amended true 0 ⟨0, 0⟩ ("ACME") (1/2)
    (some [ bullTweet ]) ⟨"ACME", 1, 1, true, [], 0⟩ h
  rw [h]
  exact congrArg _ (hiff.mpr (Or.inl ⟨by norm_num, by norm_num⟩))

/-! ### Ticker extraction -/

theorem toUpper_toNat_not_lower (c : Char) :
    ¬(97 ≤ (Char.toUpper c).toNat ∧ (Char.toUpper c).toNat ≤ 122) := by
  simp only [Char.toUpper]
  split_ifs with h
  · obtain ⟨h1, h2⟩ := h
    generalize hg : c.toNat = n at h1 h2 ⊢
    interval_cases n <;> decide
  · intro hc
    exact h ⟨hc.1, hc.2⟩

theorem toUpper_idem (c : Char) : (Char.toUpper c).toUpper = Char.toUpper c := by
  have h := toUpper_toNat_not_lower c
  generalize hd : Char.toUpper c = d at h ⊢
  simp only [Char.toUpper]
  rw [if_neg ?_]
  intro hc
  exact h ⟨hc.1, hc.2⟩

theorem toUpperList_idem (s : List Char) : toUpperList (toUpperList s) = toUpperList s := by
  simp [toUpperList, List.map_map, Function.comp_def, toUpper_idem]

/-- Elements accumulated by the `extractTickers` fold either were already in
the accumulator or are upper-cased captures passing every filter. -/
theorem foldl_insertTicker_mem (customSet : List (List Char)) :
    ∀ (caps acc : List (List Char)) (t : List Char),
      t ∈ caps.foldl (insertTicker customSet) acc →
      t ∈ acc ∨ ((∃ cap, t = toUpperList cap) ∧ 2 ≤ t.length ∧ t.length ≤ 5 ∧
        t ∉ TICKER_BLACKLIST ∧ t ∉ customSet) := by
  intro caps
  induction caps with
  | nil => exact fun acc t h => Or.inl h
  | cons c cs ih =>
    intro acc t h
    rw [List.foldl_cons] at h
    rcases ih _ t h with hin | hP
    · simp only [insertTicker] at hin
      split_ifs at hin with hc
      · rcases List.mem_append.mp hin with h1 | h2
        · exact Or.inl h1
        · rw [List.mem_singleton] at h2
          subst h2
          simp only [Bool.and_eq_true, decide_eq_true_eq, Bool.not_eq_true',
            List.contains, List.elem_eq_mem, decide_eq_false_iff_not] at hc
          obtain ⟨⟨⟨⟨hl2, hl5⟩, hbl⟩, hcs⟩, hac⟩ := hc
          exact Or.inr ⟨⟨c, rfl⟩, hl2, hl5, hbl, hcs⟩
      · exact Or.inl hin
    · exact Or.inr hP

/-- The `extractTickers` fold preserves freedom from duplicates. -/
theorem foldl_insertTicker_nodup (customSet : List (List Char)) :
    ∀ (caps acc : List (List Char)), acc.Nodup →
      (caps.foldl (insertTicker customSet) acc).Nodup := by
  intro caps
  induction caps with
  | nil => exact fun acc h => h
  | cons c cs ih =>
    intro acc hacc
    rw [List.foldl_cons]
    refine ih _ ?_
    simp only [insertTicker]
    split_ifs with hc
    · simp only [Bool.and_eq_true, decide_eq_true_eq, Bool.not_eq_true',
        List.contains, List.elem_eq_mem, decide_eq_false_iff_not] at hc
      obtain ⟨⟨⟨⟨hl2, hl5⟩, hbl⟩, hcs⟩, hac⟩ := hc
      simp [List.nodup_append, hacc, hac]
    · exact hacc

/-- C10: ticker extraction is case-insensitive in both regex alternatives —
lowercase "buy amc calls" yields AMC through the keyword-context pattern and
lowercase cashtag text yields GME — and every returned candidate is
upper-cased, deduplicated, of length 2-5, and absent from both the static
blacklist and the (upper-cased) caller blacklist. -/
theorem extractTickers_spec :
    (extractTickers ("buy amc calls".data) [] = [ "AMC".data ]) ∧
    (extractTickers (("$gme to the moon").data) [] = [ "GME".data ]) ∧
    (∀ (text : List Char) (custom : List (List Char)) (t : List Char),
      t ∈ extractTickers text custom →
      2 ≤ t.length ∧ t.length ≤ 5 ∧ toUpperList t = t ∧
      t ∉ TICKER_BLACKLIST ∧ t ∉ custom.map toUpperList) ∧
    (∀ (text : List Char) (custom : List (List Char)),
      (extractTickers text custom).Nodup) := by
  refine ⟨by decide, by decide, fun text custom t ht => ?_, fun text custom => ?_⟩
  · simp only [extractTickers] at ht
    rcases foldl_insertTicker_mem _ _ _ t ht with h | ⟨⟨cap, rfl⟩, h2, h5, hbl, hcs⟩
    · exact absurd h (List.not_mem_nil t)
    · exact ⟨h2, h5, toUpperList_idem cap, hbl, hcs⟩
  · simp only [extractTickers]
    exact foldl_insertTicker_nodup _ _ _ List.nodup_nil

/-- Witness for C10: the candidate AMC extracted from lowercase text
satisfies every emission invariant. -/
theorem extractTickers_spec_witness :
    2 ≤ ("AMC".data).length ∧ ("AMC".data).length ≤ 5 ∧
    toUpperList ("AMC".data) = "AMC".data ∧
    "AMC".data ∉ TICKER_BLACKLIST ∧
    "AMC".data ∉ ([] : List (List Char)).map toUpperList :=
  extractTickers_spec.2.2.1 ("buy amc calls".data) [] ("AMC".data) (by decide)

end Mahoraga
